import Mathlib

/-!
# gome-assistant: condition gates and listener dispatch

A shallow embedding of `listeners.go`, `app/entitylistener.go` and
`app/eventListener.go`.

## Time

An instant (`carbon.Carbon`, `time.Time`) is an `Int`: nanoseconds since the
epoch, read in a local zone with a fixed zero offset (no daylight-saving
shifts), so that a calendar day is exactly `nanosPerDay` long.  A
`time.Duration` is an `Int` number of nanoseconds, as in Go.  Every function
that reads the clock in the source (`carbon.Now()`, `IsPast`, `IsFuture`)
takes the current instant `now` as an explicit argument; one call of a gate
sees one value of `now`.
-/

namespace GomeAssistant

/-! ## The carbon operations used by the gates -/

def nanosPerSecond : Int := 1000000000

def nanosPerDay : Int := 86400 * nanosPerSecond

/-- Nanoseconds elapsed since the last local midnight. -/
def timeOfDay (t : Int) : Int := t % nanosPerDay

/-- Local midnight of the day that contains `t`. -/
def startOfDay (t : Int) : Int := t - timeOfDay t

/-- Carbon `Timestamp`: whole seconds since the epoch. -/
def Timestamp (t : Int) : Int := t / nanosPerSecond

/-- Carbon `Lt`: strictly earlier. -/
def Lt (c t : Int) : Bool := decide (c < t)

/-- Carbon `Gte`: at or after. -/
def Gte (c t : Int) : Bool := decide (t ≤ c)

/-- Carbon `IsPast`, which is `c.Timestamp() < c.Now().Timestamp()`: the Unix
timestamp of the instant, in whole seconds, is less than that of the current
instant. -/
def IsPast (now c : Int) : Bool := decide (Timestamp c < Timestamp now)

/-- Carbon `IsFuture`, which is `c.Timestamp() > c.Now().Timestamp()`: the
Unix timestamp of the instant, in whole seconds, is greater than that of the
current instant. -/
def IsFuture (now c : Int) : Bool := decide (Timestamp now < Timestamp c)

/-- Carbon `AddDay`: one day later. -/
def AddDay (c : Int) : Int := c + nanosPerDay

/-- Carbon `SubDay`: one day earlier. -/
def SubDay (c : Int) : Int := c - nanosPerDay

/-- Carbon `BetweenIncludedStart`: `start ≤ c < end`. -/
def BetweenIncludedStart (c start stop : Int) : Bool := Gte c start && Lt c stop

/-- Carbon `DiffAbsInSeconds`: the absolute difference of the two Unix
timestamps (each in whole seconds). -/
def DiffAbsInSeconds (c other : Int) : Int := |Timestamp other - Timestamp c|

/-- The conversion `int64(d.Seconds())`: `Duration.Seconds` is `float64(d / Second) +
float64(d % Second) / 1e9` and the conversion to `int64` truncates toward
zero.  The floating-point sum is exact enough for the truncation to equal
`d / Second` whenever `|d|` is below `2^24` seconds (about 194 days); from
there upward Go's sum can round up to the next whole second, as for
16777216.999999999 s.  The model takes the truncated quotient throughout, so
it speaks for durations below that bound. -/
def truncSeconds (d : Int) : Int := Int.tdiv d nanosPerSecond

/-! ## `internal.ParseTime` -/

/-- Value of a decimal digit. -/
def digitVal (c : Char) : Option Nat :=
  if c.isDigit then some (c.toNat - 48) else none

/-- Reads an `HH:MM` string as minutes after midnight; `none` when the string
is not of that form or names no time of day. -/
def parseHHMM (s : String) : Option Nat :=
  match s.data with
  | [h1, h2, ':', m1, m2] =>
    match digitVal h1, digitVal h2, digitVal m1, digitVal m2 with
    | some a, some b, some c, some d =>
      if 10 * a + b < 24 ∧ 10 * c + d < 60 then some (60 * (10 * a + b) + (10 * c + d))
      else none
    | _, _, _, _ => none
  | _ => none

/-- Modelled from the spec: `internal.ParseTime` is not among the sources.
The spec has the time-window gate "compute absolute instants for today from
the two `HH:MM` values": the result is today's midnight plus the hours and
minutes read from the string, at second zero.  A string that is not `HH:MM`
has no instant (`none`); the callers below pass that on as a failed call. -/
def ParseTime (now : Int) (s : String) : Option Int :=
  match parseHHMM s with
  | some m => some (startOfDay now + (m : Int) * 60 * nanosPerSecond)
  | none => none

/-! ## `listeners.go` -/

structure conditionCheck where
  fail : Bool
deriving DecidableEq, Repr

/-- Function `CheckWithinTimeRange` of `listeners.go`, evaluated at the instant `now`.
`none` stands for a call that does not return because `ParseTime` rejected a
string. -/
def CheckWithinTimeRange (now : Int) (startTime endTime : String) : Option conditionCheck :=
  if startTime ≠ "" ∧ endTime ≠ "" then
    match ParseTime now startTime with
    | none => none
    | some parsedStart =>
      match ParseTime now endTime with
      | none => none
      | some parsedEnd =>
        let window : Int × Int :=
          if Lt parsedEnd parsedStart then
            if IsPast now parsedEnd then (parsedStart, AddDay parsedEnd)
            else (SubDay parsedStart, parsedEnd)
          else (parsedStart, parsedEnd)
        if !BetweenIncludedStart now window.1 window.2 then some ⟨true⟩ else some ⟨false⟩
  else if startTime ≠ "" then
    match ParseTime now startTime with
    | none => none
    | some t =>
      if IsFuture now t then some ⟨true⟩
      else if endTime ≠ "" then
        match ParseTime now endTime with
        | none => none
        | some e => if IsPast now e then some ⟨true⟩ else some ⟨false⟩
      else some ⟨false⟩
  else if endTime ≠ "" then
    match ParseTime now endTime with
    | none => none
    | some e => if IsPast now e then some ⟨true⟩ else some ⟨false⟩
  else some ⟨false⟩

/-- Function `CheckStatesMatch` of `listeners.go`. -/
def CheckStatesMatch (listenerState s : String) : conditionCheck :=
  if listenerState ≠ "" ∧ listenerState ≠ s then ⟨true⟩ else ⟨false⟩

/-- Function `CheckThrottle` of `listeners.go`, evaluated at the instant `now`. -/
def CheckThrottle (now : Int) (throttle lastRan : Int) : conditionCheck :=
  if 0 < throttle ∧ DiffAbsInSeconds lastRan now < truncSeconds throttle then ⟨true⟩
  else ⟨false⟩

/-! ## Gates that are not among the sources

`callEntityListeners` and `callEventListeners` call `checkWithinTimeRange`,
`checkStatesMatch` and `checkThrottle`, which are the three functions above
under the names of package `app`, and four further gates whose text is not
available. -/

/-- Entry of `enabledEntities` / `disabledEntities`
(`internal.EnabledDisabledInfo`). -/
structure EnabledDisabledInfo where
  Entity : String
  State : String
  RunOnError : Bool
deriving DecidableEq, Repr

/-- Closed interval of instants (`timeRange`). -/
structure timeRange where
  start : Int
  stop : Int
deriving DecidableEq, Repr

/-- Modelled from the spec: `checkExceptionDates` is not among the sources.
"Fails iff today's calendar date (ignoring time-of-day) equals any date in
`exceptionDates`." -/
def checkExceptionDates (now : Int) (dates : List Int) : conditionCheck :=
  ⟨dates.any fun d => decide (startOfDay d = startOfDay now)⟩

/-- Modelled from the spec: `checkExceptionRanges` is not among the sources.
"Fails iff now falls within any closed interval in `exceptionRanges`." -/
def checkExceptionRanges (now : Int) (ranges : List timeRange) : conditionCheck :=
  ⟨ranges.any fun r => decide (r.start ≤ now) && decide (now ≤ r.stop)⟩

/-- Modelled from the spec: `checkEnabledEntity` is not among the sources.
The oracle `state` answers `none` when the query fails.  "On success, fail
the whole listener if the live state does not equal `requiredState`; on query
failure, pass or fail according to `runOnNetworkError`"; the entries are
combined with a logical and. -/
def checkEnabledEntity (state : String → Option String)
    (infos : List EnabledDisabledInfo) : conditionCheck :=
  ⟨infos.any fun edi =>
    match state edi.Entity with
    | some live => decide (live ≠ edi.State)
    | none => !edi.RunOnError⟩

/-- Modelled from the spec: `checkDisabledEntity` is not among the sources.
"Mirror logic, inverted, for `disabledEntities` (presence of matching state
disables)." -/
def checkDisabledEntity (state : String → Option String)
    (infos : List EnabledDisabledInfo) : conditionCheck :=
  ⟨infos.any fun edi =>
    match state edi.Entity with
    | some live => decide (live = edi.State)
    | none => !edi.RunOnError⟩

/-! ## `app/entitylistener.go`: data -/

/-- Attribute maps (`map[string]any`) are carried through the dispatch
untouched; they are kept as association lists. -/
abbrev Attributes := List (String × String)

/-- Payload handed to a state-change callback. -/
structure EntityData where
  TriggerEntityID : String := ""
  FromState : String := ""
  FromAttributes : Attributes := []
  ToState : String := ""
  ToAttributes : Attributes := []
  LastChanged : Int := 0
deriving DecidableEq, Repr

structure msgState where
  EntityID : String := ""
  LastChanged : Int := 0
  State : String := ""
  Attributes : Attributes := []
deriving DecidableEq, Repr

/-- The decoded notification: the `Event.Data` part of `stateChangedMsg`,
which is all that `callEntityListeners` reads. -/
structure stateChangedMsg where
  EntityID : String := ""
  NewState : msgState := {}
  OldState : msgState := {}
deriving DecidableEq, Repr

/-- The struct `EntityListener`.  A callback is named by a number; a timer handle
(`*time.Timer`) is an index into the timers of the `App`, `none` for `nil`.
The defaults are Go's zero values. -/
structure EntityListener where
  entityIDs : List String := []
  callback : Nat := 0
  fromState : String := ""
  toState : String := ""
  throttle : Int := 0
  lastRan : Int := 0
  betweenStart : String := ""
  betweenEnd : String := ""
  delay : Int := 0
  delayTimer : Option Nat := none
  exceptionDates : List Int := []
  exceptionRanges : List timeRange := []
  runOnStartup : Bool := false
  runOnStartupCompleted : Bool := false
  enabledEntities : List EnabledDisabledInfo := []
  disabledEntities : List EnabledDisabledInfo := []
deriving DecidableEq, Repr

structure elBuilder1 where
  entityListener : EntityListener
deriving DecidableEq, Repr

structure elBuilder2 where
  entityListener : EntityListener
deriving DecidableEq, Repr

/-- Method `elBuilder1.EntityIDs`; the panic is the `error` result. -/
def elBuilder1.EntityIDs (b : elBuilder1) (entityIDs : List String) : Except String elBuilder2 :=
  if entityIDs.length = 0 then
    Except.error "must pass at least one entityID to EntityIDs()"
  else
    Except.ok ⟨{ b.entityListener with entityIDs := entityIDs }⟩

structure elBuilder3 where
  entityListener : EntityListener
deriving DecidableEq, Repr

/-- Method `elBuilder3.OnlyBetween`: both ends of the time window are stored
as given. -/
def elBuilder3.OnlyBetween (b : elBuilder3) (start stop : String) : elBuilder3 :=
  ⟨{ b.entityListener with betweenStart := start, betweenEnd := stop }⟩

/-! ## `app/eventListener.go`: data -/

structure EventListener where
  eventTypes : List String := []
  callback : Nat := 0
  betweenStart : String := ""
  betweenEnd : String := ""
  throttle : Int := 0
  lastRan : Int := 0
  exceptionDates : List Int := []
  exceptionRanges : List timeRange := []
  enabledEntities : List EnabledDisabledInfo := []
  disabledEntities : List EnabledDisabledInfo := []
deriving DecidableEq, Repr

structure eventListenerBuilder1 where
  eventListener : EventListener
deriving DecidableEq, Repr

structure eventListenerBuilder2 where
  eventListener : EventListener
deriving DecidableEq, Repr

/-- Method `eventListenerBuilder1.EventTypes`: the body has no failing path, so the
function is total. -/
def eventListenerBuilder1.EventTypes (b : eventListenerBuilder1) (ets : List String) :
    eventListenerBuilder2 :=
  ⟨{ b.eventListener with eventTypes := ets }⟩

/-- The decoded generic event (`websocket.Event`): its type and the payload
passed to the callback. -/
structure Event where
  EventType : String := ""
  Data : String := ""
deriving DecidableEq, Repr

/-! ## The application state

Go's runtime state that the two dispatch functions touch is made explicit:
the listeners, the timers created by `time.AfterFunc`, and a log of the
callback invocations started by `go l.callback(...)`. -/

inductive TimerStatus where
  | pending
  | stopped
  | fired
deriving DecidableEq, Repr

/-- One timer created by `time.AfterFunc`: the closure's captured listener
and payload, the instant at which the runtime runs the closure, and whether
it is still to run. -/
structure Timer where
  listener : Nat
  entityData : EntityData
  fireAt : Int
  status : TimerStatus
deriving DecidableEq, Repr

/-- One started callback of a state-change listener. -/
structure EntityCall where
  listener : Nat
  callback : Nat
  entityData : EntityData
  time : Int
deriving DecidableEq, Repr

/-- One started callback of a generic-event listener. -/
structure EventCall where
  listener : Nat
  callback : Nat
  event : Event
  time : Int
deriving DecidableEq, Repr

/-- Modelled from the spec: the declaration of `App` is not among the
sources.  The spec's registry maps a trigger key to "the ordered list of
Listener Definitions registered against that key", and each listener's
`lastRan` and `delayTimer` are "mutable, per-listener fields" written by the
dispatch: the registry lists refer to listeners by address, and `entityStore`
/ `eventStore` give the listener stored at an address, so that a write made
while ranging over a list is seen by the next notification.  `State` is the
oracle behind `app.State`: the live state of an entity, `none` when the query
fails. -/
structure App where
  entityStore : Nat → EntityListener
  eventStore : Nat → EventListener
  entityListeners : List (String × List Nat)
  eventListeners : List (String × List Nat)
  State : String → Option String
  timers : List Timer
  entityCalls : List EntityCall
  eventCalls : List EventCall

/-- Method `Timer.Stop`: a pending timer will not run; otherwise nothing
changes. -/
def Timer.Stop (t : Timer) : Timer :=
  if t.status = TimerStatus.pending then { t with status := TimerStatus.stopped } else t

/-- The call `l.delayTimer.Stop()` through the handle `h`. -/
def App.stopTimer (app : App) (h : Nat) : App :=
  { app with timers := app.timers.modify Timer.Stop h }

/-- The statement `l.delayTimer = time.AfterFunc(l.delay, func() {...})` for
the listener at address `p`: a new pending timer is created, due `delay`
after `now` (at once when `delay` is negative), and its handle is written to
`delayTimer`.  Nothing else is done to the timers that exist. -/
def App.afterFunc (app : App) (p : Nat) (now : Int) (entityData : EntityData) : App :=
  let l := app.entityStore p
  { app with
    timers := app.timers ++ [⟨p, entityData, now + max l.delay 0, TimerStatus.pending⟩]
    entityStore := Function.update app.entityStore p
      { l with delayTimer := some app.timers.length } }

/-- The statements `go l.callback(entityData); l.lastRan = carbon.Now()` for
the listener at address `p`, at the instant `now`. -/
def App.runEntityCallback (app : App) (p : Nat) (now : Int) (entityData : EntityData) : App :=
  let l := app.entityStore p
  { app with
    entityCalls := app.entityCalls ++ [⟨p, l.callback, entityData, now⟩]
    entityStore := Function.update app.entityStore p { l with lastRan := now } }

/-- The statements `go l.callback(event); l.lastRan = carbon.Now()` for the
event listener at address `p`. -/
def App.runEventCallback (app : App) (p : Nat) (now : Int) (event : Event) : App :=
  let l := app.eventStore p
  { app with
    eventCalls := app.eventCalls ++ [⟨p, l.callback, event, now⟩]
    eventStore := Function.update app.eventStore p { l with lastRan := now } }

/-! ## `callEntityListeners` -/

/-- The payload built from the notification. -/
def mkEntityData (msg : stateChangedMsg) : EntityData :=
  { TriggerEntityID := msg.EntityID
    FromState := msg.OldState.State
    FromAttributes := msg.OldState.Attributes
    ToState := msg.NewState.State
    ToAttributes := msg.NewState.Attributes
    LastChanged := msg.OldState.LastChanged }

/-- Body of the `for _, l := range listeners` loop of `callEntityListeners`
for the listener at address `p`; `none` when a gate does not return. -/
def entityListenerBody (now : Int) (msg : stateChangedMsg) (app : App) (p : Nat) :
    Option App :=
  let l := app.entityStore p
  match CheckWithinTimeRange now l.betweenStart l.betweenEnd with
  | none => none
  | some c =>
    if c.fail then some app
    else if (CheckStatesMatch l.fromState msg.OldState.State).fail then some app
    else if (CheckStatesMatch l.toState msg.NewState.State).fail then
      match l.delayTimer with
      | some h => some (app.stopTimer h)
      | none => some app
    else if (CheckThrottle now l.throttle l.lastRan).fail then some app
    else if (checkExceptionDates now l.exceptionDates).fail then some app
    else if (checkExceptionRanges now l.exceptionRanges).fail then some app
    else if (checkEnabledEntity app.State l.enabledEntities).fail then some app
    else if (checkDisabledEntity app.State l.disabledEntities).fail then some app
    else if l.delay ≠ 0 then some (app.afterFunc p now (mkEntityData msg))
    else some (app.runEntityCallback p now (mkEntityData msg))

/-- The loop over the listeners of one key. -/
def entityListenerLoop (now : Int) (msg : stateChangedMsg) : App → List Nat → Option App
  | app, [] => some app
  | app, p :: ps =>
    match entityListenerBody now msg app p with
    | none => none
    | some app1 => entityListenerLoop now msg app1 ps

/-- Method `App.callEntityListeners` on a decoded notification, at the instant
`now`. -/
def callEntityListeners (now : Int) (app : App) (msg : stateChangedMsg) : Option App :=
  match app.entityListeners.lookup msg.EntityID with
  | none => some app
  | some listeners =>
    if msg.NewState.State = msg.OldState.State then some app
    else entityListenerLoop now msg app listeners

/-! ## `callEventListeners` -/

/-- Body of the loop of `callEventListeners` for the listener at address
`p`. -/
def eventListenerBody (now : Int) (event : Event) (app : App) (p : Nat) : Option App :=
  let l := app.eventStore p
  match CheckWithinTimeRange now l.betweenStart l.betweenEnd with
  | none => none
  | some c =>
    if c.fail then some app
    else if (CheckThrottle now l.throttle l.lastRan).fail then some app
    else if (checkExceptionDates now l.exceptionDates).fail then some app
    else if (checkExceptionRanges now l.exceptionRanges).fail then some app
    else if (checkEnabledEntity app.State l.enabledEntities).fail then some app
    else if (checkDisabledEntity app.State l.disabledEntities).fail then some app
    else some (app.runEventCallback p now event)

def eventListenerLoop (now : Int) (event : Event) : App → List Nat → Option App
  | app, [] => some app
  | app, p :: ps =>
    match eventListenerBody now event app p with
    | none => none
    | some app1 => eventListenerLoop now event app1 ps

/-- Method `App.callEventListeners` on a decoded event, at the instant `now`. -/
def callEventListeners (now : Int) (app : App) (event : Event) : Option App :=
  match app.eventListeners.lookup event.EventType with
  | none => some app
  | some listeners => eventListenerLoop now event app listeners

/-! ## Timers running

The closure given to `time.AfterFunc` is
`go l.callback(entityData); l.lastRan = carbon.Now()`. -/

/-- The runtime runs the closure of timer `h`, when it is still pending, at
the instant the timer is due. -/
def App.fireTimer (app : App) (h : Nat) : App :=
  match app.timers[h]? with
  | none => app
  | some t =>
    if t.status = TimerStatus.pending then
      let app1 := app.runEntityCallback t.listener t.fireAt t.entityData
      { app1 with timers := app.timers.set h { t with status := TimerStatus.fired } }
    else app

/-- The runtime is let run up to the instant `now`: every pending timer that
is due by then runs its closure. -/
def App.advance (app : App) (now : Int) : App :=
  (List.range app.timers.length).foldl
    (fun a h =>
      match a.timers[h]? with
      | some t => if t.fireAt ≤ now then a.fireTimer h else a
      | none => a)
    app

/-- A feed of notifications, each with the instant at which the intake loop
handles it: the timers due by that instant run first. -/
def runFeed : App → List (Int × stateChangedMsg) → Option App
  | app, [] => some app
  | app, (now, msg) :: rest =>
    match callEntityListeners now (app.advance now) msg with
    | none => none
    | some app1 => runFeed app1 rest

/-- The instants at which the callback of the listener at `p` was started. -/
def App.callTimes (app : App) (p : Nat) : List Int :=
  (app.entityCalls.filter fun c => c.listener = p).map fun c => c.time

/-- The timers of the listener at `p` that are still to run. -/
def App.pendingTimers (app : App) (p : Nat) : List Timer :=
  app.timers.filter fun t => t.listener = p ∧ t.status = TimerStatus.pending

/-! ## Predicates used to state the properties -/

/-- Every gate of the state-change path passes for the listener `l`. -/
def entityGatesPass (now : Int) (state : String → Option String) (msg : stateChangedMsg)
    (l : EntityListener) : Bool :=
  decide (CheckWithinTimeRange now l.betweenStart l.betweenEnd = some ⟨false⟩) &&
  !(CheckStatesMatch l.fromState msg.OldState.State).fail &&
  !(CheckStatesMatch l.toState msg.NewState.State).fail &&
  !(CheckThrottle now l.throttle l.lastRan).fail &&
  !(checkExceptionDates now l.exceptionDates).fail &&
  !(checkExceptionRanges now l.exceptionRanges).fail &&
  !(checkEnabledEntity state l.enabledEntities).fail &&
  !(checkDisabledEntity state l.disabledEntities).fail

/-- Every gate of the generic-event path passes for the listener `l`. -/
def eventGatesPass (now : Int) (state : String → Option String) (l : EventListener) : Bool :=
  decide (CheckWithinTimeRange now l.betweenStart l.betweenEnd = some ⟨false⟩) &&
  !(CheckThrottle now l.throttle l.lastRan).fail &&
  !(checkExceptionDates now l.exceptionDates).fail &&
  !(checkExceptionRanges now l.exceptionRanges).fail &&
  !(checkEnabledEntity state l.enabledEntities).fail &&
  !(checkDisabledEntity state l.disabledEntities).fail

/-- The timer with handle `h` exists and is still to run. -/
def App.timerPending (app : App) (h : Nat) : Bool :=
  match app.timers[h]? with
  | some t => decide (t.status = TimerStatus.pending)
  | none => false

/-- The instants at which the callback of the event listener at `p` was
started. -/
def App.eventCallTimes (app : App) (p : Nat) : List Int :=
  (app.eventCalls.filter fun c => c.listener = p).map fun c => c.time

/-- The listener with the two fields that the dispatch writes blanked. -/
def EntityListener.frame (l : EntityListener) : EntityListener :=
  { l with lastRan := 0, delayTimer := none }

/-- The event listener with the field that the dispatch writes blanked. -/
def EventListener.frame (l : EventListener) : EventListener :=
  { l with lastRan := 0 }

/-- The timer with handle `h` exists and will not run (any more). -/
def App.timerSettled (app : App) (h : Nat) : Prop :=
  ∃ t, app.timers[h]? = some t ∧ t.status ≠ TimerStatus.pending

/-- What iterations of the state-change loop at the instant `now` may have
made of `app0`: the oracle and the unwritten fields are as before, calls are
only added, and a listener whose `lastRan` differs has passed every gate
without delay, has `lastRan = now` and has a call added at `now`. -/
def entityProgress (now : Int) (msg : stateChangedMsg) (app0 app : App) : Prop :=
  app.State = app0.State ∧
  ∃ added, app.entityCalls = app0.entityCalls ++ added ∧
    ∀ q, (app.entityStore q).frame = (app0.entityStore q).frame ∧
      ((app.entityStore q).lastRan = (app0.entityStore q).lastRan ∨
        ((app.entityStore q).lastRan = now ∧
          entityGatesPass now app0.State msg (app0.entityStore q) = true ∧
          (app0.entityStore q).delay = 0 ∧
          ∃ c ∈ added, c.listener = q ∧ c.time = now))

/-- The same for the generic-event loop. -/
def eventProgress (now : Int) (app0 app : App) : Prop :=
  app.State = app0.State ∧
  ∃ added, app.eventCalls = app0.eventCalls ++ added ∧
    ∀ q, (app.eventStore q).frame = (app0.eventStore q).frame ∧
      ((app.eventStore q).lastRan = (app0.eventStore q).lastRan ∨
        ((app.eventStore q).lastRan = now ∧
          eventGatesPass now app0.State (app0.eventStore q) = true ∧
          ∃ c ∈ added, c.listener = q ∧ c.time = now))

/-! ## Scenarios used below -/

def seconds (n : Int) : Int := n * nanosPerSecond

def millis (n : Int) : Int := n * 1000000

/-- An application with one state-change listener `l`, stored at address 0
and registered under each of its entity IDs; no timers, no calls so far, and
a state oracle whose queries fail. -/
def singleListenerApp (l : EntityListener) : App :=
  { entityStore := fun _ => l
    eventStore := fun _ => {}
    entityListeners := l.entityIDs.map fun eid => (eid, [0])
    eventListeners := []
    State := fun _ => none
    timers := []
    entityCalls := []
    eventCalls := [] }

/-- A state-change notification for `light.pantry`. -/
def pantryMsg (old new : String) : stateChangedMsg :=
  { EntityID := "light.pantry"
    OldState := { EntityID := "light.pantry", State := old }
    NewState := { EntityID := "light.pantry", State := new } }

/-- The scenario of the spec: `light.pantry`, `toState = "on"`, no delay. -/
def pantryListener : EntityListener :=
  { entityIDs := ["light.pantry"], callback := 1, toState := "on" }

/-- A duplicate notification: the state stays `on`, only an attribute
differs. -/
def pantryRefresh : stateChangedMsg :=
  { EntityID := "light.pantry"
    OldState := { EntityID := "light.pantry", State := "on", Attributes := [("brightness", "120")] }
    NewState := { EntityID := "light.pantry", State := "on", Attributes := [("brightness", "255")] } }

/-- A listener that waits five seconds after `off → on`. -/
def delayedListener : EntityListener :=
  { entityIDs := ["light.pantry"], callback := 1, fromState := "off", toState := "on",
    delay := seconds 5 }

/-- The same with a throttle of one minute. -/
def throttledDelayedListener : EntityListener :=
  { delayedListener with throttle := seconds 60 }

/-- A listener that waits five seconds after the light turns `on`. -/
def stayOnListener : EntityListener :=
  { entityIDs := ["light.pantry"], callback := 1, toState := "on", delay := seconds 5 }

/-- The application of `stayOnListener` after `off → on` at 100 s: its timer
is armed. -/
def armedApp : App :=
  (singleListenerApp stayOnListener).afterFunc 0 (seconds 100)
    (mkEntityData (pantryMsg "off" "on"))

/-- An event listener with a throttle of half a second. -/
def zwaveListener : EventListener :=
  { eventTypes := ["zwave_js_value_notification"], callback := 2, throttle := millis 500 }

/-- An application with one event listener `l`, stored at address 0. -/
def singleEventListenerApp (l : EventListener) : App :=
  { entityStore := fun _ => {}
    eventStore := fun _ => l
    entityListeners := []
    eventListeners := l.eventTypes.map fun et => (et, [0])
    State := fun _ => none
    timers := []
    entityCalls := []
    eventCalls := [] }

/-- An application with the pantry listener and the event listener, each at
address 0 of its store. -/
def mixedApp : App :=
  { entityStore := fun _ => pantryListener
    eventStore := fun _ => zwaveListener
    entityListeners := [("light.pantry", [0])]
    eventListeners := [("zwave_js_value_notification", [0])]
    State := fun _ => none
    timers := []
    entityCalls := []
    eventCalls := [] }

/-- An event of the type the event listener subscribes to. -/
def zwaveEvent : Event := { EventType := "zwave_js_value_notification", Data := "value 3" }

/-- Two events of the listener's type handled at the instants `t1` and
`t2`. -/
def twoEvents (app : App) (t1 t2 : Int) : Option App :=
  match callEventListeners t1 app { EventType := "zwave_js_value_notification" } with
  | none => none
  | some app1 => callEventListeners t2 app1 { EventType := "zwave_js_value_notification" }

/-! ## Facts about the time model -/

theorem parseHHMM_lt (s : String) (m : Nat) (h : parseHHMM s = some m) : m < 1440 := by
  unfold parseHHMM at h
  split at h
  · split at h
    · split at h
      · injection h with h; omega
      · exact absurd h (by simp)
    · exact absurd h (by simp)
  · exact absurd h (by simp)

theorem parseHHMM_ne_empty (s : String) (m : Nat) (h : parseHHMM s = some m) : s ≠ "" := by
  intro hs
  subst hs
  have h0 : parseHHMM "" = none := by decide
  rw [h0] at h
  cases h

theorem timeOfDay_bounds (t : Int) : 0 ≤ timeOfDay t ∧ timeOfDay t < nanosPerDay := by
  unfold timeOfDay nanosPerDay nanosPerSecond
  omega

/-! ## The gates of `listeners.go` -/

/-- C1: for `HH:MM` strings with the start later in the day than the end (`a`
and `b` are their minutes after midnight, `b < a`), `CheckWithinTimeRange`
returns, and it passes exactly when the time of day of `now` is at or after
the start or strictly before the end. -/
theorem CheckWithinTimeRange_wraparound (now : Int) (startTime endTime : String) (a b : Nat)
    (hs : parseHHMM startTime = some a) (he : parseHHMM endTime = some b) (hlt : b < a) :
    ∃ c, CheckWithinTimeRange now startTime endTime = some c ∧
      (c.fail = false ↔
        ((a : Int) * 60 * nanosPerSecond ≤ timeOfDay now ∨
          timeOfDay now < (b : Int) * 60 * nanosPerSecond)) := by
  have ha := parseHHMM_lt _ _ hs
  have hs0 := parseHHMM_ne_empty _ _ hs
  have he0 := parseHHMM_ne_empty _ _ he
  have htod := timeOfDay_bounds now
  simp only [CheckWithinTimeRange, ParseTime, hs, he, hs0, he0, ne_eq, not_false_eq_true,
    and_self, if_true, Lt, IsPast, Timestamp, AddDay, SubDay, BetweenIncludedStart, Gte,
    startOfDay]
  simp only [nanosPerDay, nanosPerSecond] at htod ⊢
  split_ifs <;> simp_all <;> omega

/-- The window `23:00`–`07:00` of C1 at 23:00 sharp on day 5: the gate
passes. -/
theorem CheckWithinTimeRange_wraparound_witness :
    ∃ c, CheckWithinTimeRange (5 * nanosPerDay + seconds 82800) "23:00" "07:00" = some c ∧
      (c.fail = false ↔
        (((1380 : Nat) : Int) * 60 * nanosPerSecond ≤ timeOfDay (5 * nanosPerDay + seconds 82800) ∨
          timeOfDay (5 * nanosPerDay + seconds 82800) < ((420 : Nat) : Int) * 60 * nanosPerSecond)) :=
  CheckWithinTimeRange_wraparound (5 * nanosPerDay + seconds 82800) "23:00" "07:00" 1380 420
    (by decide) (by decide) (by decide)

/-- The examples of C1 for the window `23:00`–`07:00`: 23:00 and 23:30 pass,
06:59 passes, 07:00 fails, and so does 15:00. -/
theorem CheckWithinTimeRange_night_examples :
    CheckWithinTimeRange (5 * nanosPerDay + seconds (23 * 3600)) "23:00" "07:00" = some ⟨false⟩ ∧
    CheckWithinTimeRange (5 * nanosPerDay + seconds (23 * 3600 + 30 * 60)) "23:00" "07:00"
      = some ⟨false⟩ ∧
    CheckWithinTimeRange (5 * nanosPerDay + seconds (6 * 3600 + 59 * 60)) "23:00" "07:00"
      = some ⟨false⟩ ∧
    CheckWithinTimeRange (5 * nanosPerDay + seconds (7 * 3600)) "23:00" "07:00" = some ⟨true⟩ ∧
    CheckWithinTimeRange (5 * nanosPerDay + seconds (15 * 3600)) "23:00" "07:00" = some ⟨true⟩ := by
  decide

/-- C2 (evaluation at the failing inputs): with a throttle of 500 ms and a
last run 100 ms ago, and with a throttle of 1.5 s and a last run 1.2 s ago,
the elapsed time is less than the positive throttle and yet `CheckThrottle`
does not fail. -/
theorem CheckThrottle_fraction_passes :
    ((CheckThrottle (seconds 10 + millis 100) (millis 500) (seconds 10)).fail = false ∧
      0 < millis 500 ∧ |(seconds 10 + millis 100) - seconds 10| < millis 500) ∧
    ((CheckThrottle (seconds 10 + millis 1200) (millis 1500) (seconds 10)).fail = false ∧
      0 < millis 1500 ∧ |(seconds 10 + millis 1200) - seconds 10| < millis 1500) := by
  decide

/-- What `CheckThrottle` computes: it fails exactly when the throttle is
positive and the two Unix timestamps differ by less than the throttle's whole
seconds. -/
theorem CheckThrottle_fail_iff (now throttle lastRan : Int) :
    (CheckThrottle now throttle lastRan).fail = true ↔
      (0 < throttle ∧ |Timestamp now - Timestamp lastRan| < Int.tdiv throttle nanosPerSecond) := by
  unfold CheckThrottle DiffAbsInSeconds truncSeconds
  split_ifs with h
  · simpa using h
  · simpa using h

/-- A positive throttle below one second never makes `CheckThrottle` fail. -/
theorem CheckThrottle_below_one_second (now throttle lastRan : Int)
    (h0 : 0 < throttle) (h1 : throttle < nanosPerSecond) :
    (CheckThrottle now throttle lastRan).fail = false := by
  have hz : Int.tdiv throttle nanosPerSecond = 0 := Int.tdiv_eq_zero_of_lt (le_of_lt h0) h1
  have habs : ¬ |Timestamp now - Timestamp lastRan| < 0 := not_lt.mpr (abs_nonneg _)
  unfold CheckThrottle DiffAbsInSeconds truncSeconds
  rw [hz]
  simp [habs]

/-- C8 (counterexample): with only the end `13:30` set, half a second after
13:30:00 on day 5 today's end instant is already before `now`, and yet the
gate does not fail. -/
theorem CheckWithinTimeRange_end_just_passed :
    ParseTime (5 * nanosPerDay + seconds 48600 + millis 500) "13:30"
      = some (5 * nanosPerDay + seconds 48600) ∧
    5 * nanosPerDay + seconds 48600 < 5 * nanosPerDay + seconds 48600 + millis 500 ∧
    CheckWithinTimeRange (5 * nanosPerDay + seconds 48600 + millis 500) "" "13:30"
      = some ⟨false⟩ := by
  decide

/-- C8 (amended): for an `HH:MM` string `t` (`m` minutes after midnight): with
only the start set the gate returns and fails exactly when today's start
instant is after `now`; with only the end set it returns and fails exactly
when today's end instant is a full second or more before `now`; with neither
set it passes. -/
theorem CheckWithinTimeRange_one_sided (now : Int) (t : String) (m : Nat)
    (ht : parseHHMM t = some m) :
    (∃ c, CheckWithinTimeRange now t "" = some c ∧
      (c.fail = true ↔ now < startOfDay now + (m : Int) * 60 * nanosPerSecond)) ∧
    (∃ c, CheckWithinTimeRange now "" t = some c ∧
      (c.fail = true ↔
        startOfDay now + (m : Int) * 60 * nanosPerSecond + nanosPerSecond ≤ now)) ∧
    CheckWithinTimeRange now "" "" = some ⟨false⟩ := by
  have ht0 := parseHHMM_ne_empty _ _ ht
  have htod := timeOfDay_bounds now
  refine ⟨?_, ?_, ?_⟩
  · simp only [CheckWithinTimeRange, ParseTime, ht, ht0, ne_eq, not_true_eq_false,
      not_false_eq_true, and_false, if_false, if_true, IsFuture, Timestamp, startOfDay]
    simp only [timeOfDay, nanosPerDay, nanosPerSecond] at htod ⊢
    split_ifs <;> simp_all <;> omega
  · simp only [CheckWithinTimeRange, ParseTime, ht, ht0, ne_eq, not_true_eq_false,
      not_false_eq_true, false_and, if_false, if_true, IsPast, Timestamp, startOfDay]
    simp only [timeOfDay, nanosPerDay, nanosPerSecond] at htod ⊢
    split_ifs <;> simp_all <;> omega
  · simp [CheckWithinTimeRange]

/-- C8 (amended) at 12:00 on day 5 with the string `13:30`. -/
theorem CheckWithinTimeRange_one_sided_witness :
    (∃ c, CheckWithinTimeRange (5 * nanosPerDay + seconds 43200) "13:30" "" = some c ∧
      (c.fail = true ↔ 5 * nanosPerDay + seconds 43200 <
        startOfDay (5 * nanosPerDay + seconds 43200) + ((810 : Nat) : Int) * 60 * nanosPerSecond)) ∧
    (∃ c, CheckWithinTimeRange (5 * nanosPerDay + seconds 43200) "" "13:30" = some c ∧
      (c.fail = true ↔
        startOfDay (5 * nanosPerDay + seconds 43200) + ((810 : Nat) : Int) * 60 * nanosPerSecond
          + nanosPerSecond ≤ 5 * nanosPerDay + seconds 43200)) ∧
    CheckWithinTimeRange (5 * nanosPerDay + seconds 43200) "" "" = some ⟨false⟩ :=
  CheckWithinTimeRange_one_sided (5 * nanosPerDay + seconds 43200) "13:30" 810 (by decide)

/-- The one-sided gates on day 5 for `13:30`: the start-only gate fails at
13:29:59.5 and passes at 13:30:00; the end-only gate passes at 13:30:00 and
at 13:30:00.999, and fails at 13:30:01. -/
theorem CheckWithinTimeRange_one_sided_examples :
    CheckWithinTimeRange (5 * nanosPerDay + seconds 48599 + millis 500) "13:30" ""
      = some ⟨true⟩ ∧
    CheckWithinTimeRange (5 * nanosPerDay + seconds 48600) "13:30" "" = some ⟨false⟩ ∧
    CheckWithinTimeRange (5 * nanosPerDay + seconds 48600) "" "13:30" = some ⟨false⟩ ∧
    CheckWithinTimeRange (5 * nanosPerDay + seconds 48600 + millis 999) "" "13:30"
      = some ⟨false⟩ ∧
    CheckWithinTimeRange (5 * nanosPerDay + seconds 48601) "" "13:30" = some ⟨true⟩ := by
  decide

/-- C9: `CheckStatesMatch` fails exactly when the filter is non-empty and
differs from the observed state; an empty filter passes every state. -/
theorem CheckStatesMatch_fail_iff (f s : String) :
    ((CheckStatesMatch f s).fail = true ↔ (f ≠ "" ∧ f ≠ s)) ∧
    (CheckStatesMatch "" s).fail = false := by
  constructor
  · unfold CheckStatesMatch
    split_ifs with h
    · simpa using h
    · simpa using h
  · simp [CheckStatesMatch]

/-! ## Builders -/

/-- C7 (evaluation at the failing input): `EventTypes()` with no event type
returns a builder whose listener has no match key, where `EntityIDs()` with
no entity ID fails. -/
theorem EventTypes_accepts_no_key (b : eventListenerBuilder1) (b1 : elBuilder1) :
    (b.EventTypes []).eventListener.eventTypes = [] ∧
    b1.EntityIDs [] = Except.error "must pass at least one entityID to EntityIDs()" := by
  constructor <;> rfl

/-- With at least one key both builders store exactly the keys given. -/
theorem builders_store_keys (b : eventListenerBuilder1) (b1 : elBuilder1) (k : String)
    (ks : List String) :
    (b.EventTypes (k :: ks)).eventListener.eventTypes = k :: ks ∧
    ∃ b2, b1.EntityIDs (k :: ks) = Except.ok b2 ∧ b2.entityListener.entityIDs = k :: ks := by
  refine ⟨rfl, ⟨{ b1.entityListener with entityIDs := k :: ks }⟩, ?_, rfl⟩
  simp [elBuilder1.EntityIDs]

/-! ## Dispatch: notifications that change no state -/

/-- C5: a notification whose new state string equals its old state string
leaves the whole application state as it was: no callback is started, no
timer is created and no listener is written to. -/
theorem callEntityListeners_same_state (now : Int) (app : App) (msg : stateChangedMsg)
    (h : msg.NewState.State = msg.OldState.State) :
    callEntityListeners now app msg = some app := by
  unfold callEntityListeners
  split
  · rfl
  · simp [h]

/-- C5 on the pantry listener: an attribute-only refresh of a light that is
`on` does nothing, although `off → on` starts the callback. -/
theorem callEntityListeners_same_state_witness :
    pantryRefresh.NewState.State = pantryRefresh.OldState.State ∧
    callEntityListeners (seconds 100) (singleListenerApp pantryListener) pantryRefresh
      = some (singleListenerApp pantryListener) ∧
    (callEntityListeners (seconds 100) (singleListenerApp pantryListener)
      (pantryMsg "off" "on")).map (fun a => a.callTimes 0) = some [seconds 100] :=
  ⟨rfl, callEntityListeners_same_state (seconds 100) (singleListenerApp pantryListener)
    pantryRefresh rfl, by decide⟩

/-! ## Dispatch: delay timers -/

/-- C3 (evaluation at the failing inputs): the listener waits five seconds
after `off → on`; the feed is `off → on` at 100 s, `on → off` at 101 s and
`off → on` at 102 s.  After the feed two timers of the listener are pending,
and the callback is started twice, at 105 s and at 107 s.  The same happens
to the listener with only `toState = "on"` when two notifications with the
new state `on` are handled two seconds apart. -/
theorem rearming_keeps_old_timer :
    (runFeed (singleListenerApp delayedListener)
      [(seconds 100, pantryMsg "off" "on"), (seconds 101, pantryMsg "on" "off"),
        (seconds 102, pantryMsg "off" "on")]).map
      (fun a => ((a.pendingTimers 0).length, (a.advance (seconds 200)).callTimes 0))
      = some (2, [seconds 105, seconds 107]) ∧
    (runFeed (singleListenerApp stayOnListener)
      [(seconds 100, pantryMsg "off" "on"), (seconds 102, pantryMsg "unavailable" "on")]).map
      (fun a => ((a.pendingTimers 0).length, (a.advance (seconds 200)).callTimes 0))
      = some (2, [seconds 105, seconds 107]) := by
  decide

/-- C4 (counterexample): the listener has `fromState = "off"`,
`toState = "on"` and a delay of five seconds.  After `off → on` at 100 s its
timer is pending; the notification `on → off` at 101 s has a new state other
than `toState`, yet the timer stays pending and the callback is started at
105 s for the target `on`. -/
theorem mismatch_behind_fromState_keeps_timer :
    (runFeed (singleListenerApp delayedListener) [(seconds 100, pantryMsg "off" "on")]).map
      (fun a => ((a.entityStore 0).delayTimer, a.timerPending 0)) = some (some 0, true) ∧
    (runFeed (singleListenerApp delayedListener)
      [(seconds 100, pantryMsg "off" "on"), (seconds 101, pantryMsg "on" "off")]).map
      (fun a => (a.timerPending 0,
        (a.advance (seconds 200)).entityCalls.map fun c => (c.entityData.ToState, c.time)))
      = some (true, [("on", seconds 105)]) := by
  decide

/-! ## Dispatch: throttle -/

/-- C6 (evaluation at the failing inputs): with a throttle of one minute and
a delay of five seconds, the feed `off → on` at 100 s, `on → off` at 101 s,
`off → on` at 102 s starts the callback at 105 s and again at 107 s; and an
event listener with a throttle of 500 ms is started at 100 s and again
100 ms later. -/
theorem throttle_allows_close_calls :
    (runFeed (singleListenerApp throttledDelayedListener)
      [(seconds 100, pantryMsg "off" "on"), (seconds 101, pantryMsg "on" "off"),
        (seconds 102, pantryMsg "off" "on")]).map
      (fun a => (a.advance (seconds 200)).callTimes 0) = some [seconds 105, seconds 107] ∧
    (twoEvents (singleEventListenerApp zwaveListener) (seconds 100)
      (seconds 100 + millis 100)).map (fun a => a.eventCallTimes 0)
      = some [seconds 100, seconds 100 + millis 100] := by
  decide

/-! ## Dispatch: one listener -/

theorem entityListenerBody_of_pass (now : Int) (msg : stateChangedMsg) (app : App) (p : Nat)
    (h : entityGatesPass now app.State msg (app.entityStore p) = true) :
    entityListenerBody now msg app p =
      some (if (app.entityStore p).delay ≠ 0 then app.afterFunc p now (mkEntityData msg)
        else app.runEntityCallback p now (mkEntityData msg)) := by
  simp only [entityGatesPass, Bool.and_eq_true, decide_eq_true_eq, Bool.not_eq_true'] at h
  obtain ⟨⟨⟨⟨⟨⟨⟨h1, h2⟩, h3⟩, h4⟩, h5⟩, h6⟩, h7⟩, h8⟩ := h
  simp only [entityListenerBody, h1, h2, h3, h4, h5, h6, h7, h8]
  split_ifs <;> simp_all

theorem entityListenerBody_of_fail (now : Int) (msg : stateChangedMsg) (app app1 : App) (p : Nat)
    (h : entityGatesPass now app.State msg (app.entityStore p) = false)
    (hb : entityListenerBody now msg app p = some app1) :
    app1 = app ∨ ∃ t, (app.entityStore p).delayTimer = some t ∧ app1 = app.stopTimer t := by
  simp only [entityListenerBody] at hb
  simp only [entityGatesPass] at h
  split at hb
  · cases hb
  · rename_i c hc
    split_ifs at hb with g1 g2 g3 g4 g5 g6 g7 g8 g9
    · left; injection hb with hb; exact hb.symm
    · left; injection hb with hb; exact hb.symm
    · split at hb
      · rename_i t ht
        right; exact ⟨t, ht, by injection hb with hb; exact hb.symm⟩
      · left; injection hb with hb; exact hb.symm
    · left; injection hb with hb; exact hb.symm
    · left; injection hb with hb; exact hb.symm
    · left; injection hb with hb; exact hb.symm
    · left; injection hb with hb; exact hb.symm
    · left; injection hb with hb; exact hb.symm
    · exfalso
      have hc1 : c = ⟨false⟩ := by cases c; simp_all
      simp_all
    · exfalso
      have hc1 : c = ⟨false⟩ := by cases c; simp_all
      simp_all

theorem entityGatesPass_congr (now : Int) (state : String → Option String)
    (msg : stateChangedMsg) (l l1 : EntityListener)
    (hf : l.frame = l1.frame) (hl : l.lastRan = l1.lastRan) :
    entityGatesPass now state msg l = entityGatesPass now state msg l1 := by
  have e : entityGatesPass now state msg l
      = entityGatesPass now state msg { l.frame with lastRan := l.lastRan } := rfl
  have e1 : entityGatesPass now state msg l1
      = entityGatesPass now state msg { l1.frame with lastRan := l1.lastRan } := rfl
  rw [e, e1, hf, hl]

theorem entityProgress_refl (now : Int) (msg : stateChangedMsg) (app : App) :
    entityProgress now msg app app :=
  ⟨rfl, [], by simp, fun _ => ⟨rfl, Or.inl rfl⟩⟩

theorem entityProgress_step (now : Int) (msg : stateChangedMsg) (app0 app app1 : App) (p : Nat)
    (hinv : entityProgress now msg app0 app)
    (hb : entityListenerBody now msg app p = some app1) :
    entityProgress now msg app0 app1 := by
  obtain ⟨hst, added, hcalls, hq⟩ := hinv
  cases hpass : entityGatesPass now app.State msg (app.entityStore p) with
  | false =>
    rcases entityListenerBody_of_fail now msg app app1 p hpass hb with h | ⟨t, _, h⟩
    · subst h; exact ⟨hst, added, hcalls, hq⟩
    · subst h; exact ⟨hst, added, hcalls, hq⟩
  | true =>
    rw [entityListenerBody_of_pass now msg app p hpass] at hb
    injection hb with hb
    by_cases hd : (app.entityStore p).delay ≠ 0
    · rw [if_pos hd] at hb
      subst hb
      refine ⟨hst, added, hcalls, fun q => ?_⟩
      by_cases hqp : q = p
      · subst hqp
        have := hq q
        simp only [App.afterFunc, Function.update_same]
        exact this
      · simp only [App.afterFunc, Function.update_noteq hqp]
        exact hq q
    · rw [if_neg hd] at hb
      subst hb
      have hd0 : (app.entityStore p).delay = 0 := not_not.mp hd
      refine ⟨hst, added ++ [⟨p, (app.entityStore p).callback, mkEntityData msg, now⟩], ?_,
        fun q => ?_⟩
      · simp [App.runEntityCallback, hcalls]
      · by_cases hqp : q = p
        · subst hqp
          obtain ⟨hf, hl⟩ := hq q
          simp only [App.runEntityCallback, Function.update_same]
          refine ⟨hf, Or.inr ⟨by trivial, ?_, ?_,
            ⟨⟨q, (app.entityStore q).callback, mkEntityData msg, now⟩, by simp, rfl, rfl⟩⟩⟩
          · rcases hl with hl | ⟨_, hg, _, _⟩
            · rw [← entityGatesPass_congr now app0.State msg _ _ hf hl, ← hst]; exact hpass
            · exact hg
          · have : (app.entityStore q).frame.delay = (app0.entityStore q).frame.delay := by rw [hf]
            exact this.symm.trans hd0
        · simp only [App.runEntityCallback, Function.update_noteq hqp]
          obtain ⟨hf, hl⟩ := hq q
          refine ⟨hf, ?_⟩
          rcases hl with hl | ⟨h1, h2, h3, c, hc, h4⟩
          · exact Or.inl hl
          · exact Or.inr ⟨h1, h2, h3, c, by simp [hc], h4⟩

theorem entityProgress_loop (now : Int) (msg : stateChangedMsg) (app0 : App) (ps : List Nat) :
    ∀ app app1, entityProgress now msg app0 app →
      entityListenerLoop now msg app ps = some app1 → entityProgress now msg app0 app1 := by
  induction ps with
  | nil =>
    intro app app1 hinv h
    simp only [entityListenerLoop] at h
    injection h with h
    subst h
    exact hinv
  | cons p ps ih =>
    intro app app1 hinv h
    simp only [entityListenerLoop] at h
    split at h
    · cases h
    · rename_i app2 hb
      exact ih app2 app1 (entityProgress_step now msg app0 app app2 p hinv hb) h

theorem eventListenerBody_of_pass (now : Int) (event : Event) (app : App) (p : Nat)
    (h : eventGatesPass now app.State (app.eventStore p) = true) :
    eventListenerBody now event app p = some (app.runEventCallback p now event) := by
  simp only [eventGatesPass, Bool.and_eq_true, decide_eq_true_eq, Bool.not_eq_true'] at h
  obtain ⟨⟨⟨⟨⟨h1, h2⟩, h3⟩, h4⟩, h5⟩, h6⟩ := h
  simp [eventListenerBody, h1, h2, h3, h4, h5, h6]

theorem eventListenerBody_of_fail (now : Int) (event : Event) (app app1 : App) (p : Nat)
    (h : eventGatesPass now app.State (app.eventStore p) = false)
    (hb : eventListenerBody now event app p = some app1) : app1 = app := by
  simp only [eventListenerBody] at hb
  simp only [eventGatesPass] at h
  split at hb
  · cases hb
  · rename_i c hc
    split_ifs at hb with g1 g2 g3 g4 g5 g6
    · injection hb with hb; exact hb.symm
    · injection hb with hb; exact hb.symm
    · injection hb with hb; exact hb.symm
    · injection hb with hb; exact hb.symm
    · injection hb with hb; exact hb.symm
    · injection hb with hb; exact hb.symm
    · exfalso
      have hc1 : c = ⟨false⟩ := by cases c; simp_all
      simp_all

theorem eventGatesPass_congr (now : Int) (state : String → Option String)
    (l l1 : EventListener) (hf : l.frame = l1.frame) (hl : l.lastRan = l1.lastRan) :
    eventGatesPass now state l = eventGatesPass now state l1 := by
  have e : eventGatesPass now state l
      = eventGatesPass now state { l.frame with lastRan := l.lastRan } := rfl
  have e1 : eventGatesPass now state l1
      = eventGatesPass now state { l1.frame with lastRan := l1.lastRan } := rfl
  rw [e, e1, hf, hl]

theorem eventProgress_refl (now : Int) (app : App) : eventProgress now app app :=
  ⟨rfl, [], by simp, fun _ => ⟨rfl, Or.inl rfl⟩⟩

theorem eventProgress_step (now : Int) (event : Event) (app0 app app1 : App) (p : Nat)
    (hinv : eventProgress now app0 app)
    (hb : eventListenerBody now event app p = some app1) :
    eventProgress now app0 app1 := by
  obtain ⟨hst, added, hcalls, hq⟩ := hinv
  cases hpass : eventGatesPass now app.State (app.eventStore p) with
  | false =>
    have h := eventListenerBody_of_fail now event app app1 p hpass hb
    subst h; exact ⟨hst, added, hcalls, hq⟩
  | true =>
    rw [eventListenerBody_of_pass now event app p hpass] at hb
    injection hb with hb
    subst hb
    refine ⟨hst, added ++ [⟨p, (app.eventStore p).callback, event, now⟩], ?_, fun q => ?_⟩
    · simp [App.runEventCallback, hcalls]
    · by_cases hqp : q = p
      · subst hqp
        obtain ⟨hf, hl⟩ := hq q
        simp only [App.runEventCallback, Function.update_same]
        refine ⟨hf, Or.inr ⟨by trivial, ?_,
          ⟨⟨q, (app.eventStore q).callback, event, now⟩, by simp, rfl, rfl⟩⟩⟩
        rcases hl with hl | ⟨_, hg, _⟩
        · rw [← eventGatesPass_congr now app0.State _ _ hf hl, ← hst]; exact hpass
        · exact hg
      · simp only [App.runEventCallback, Function.update_noteq hqp]
        obtain ⟨hf, hl⟩ := hq q
        refine ⟨hf, ?_⟩
        rcases hl with hl | ⟨h1, h2, c, hc, h4⟩
        · exact Or.inl hl
        · exact Or.inr ⟨h1, h2, c, by simp [hc], h4⟩

theorem eventProgress_loop (now : Int) (event : Event) (app0 : App) (ps : List Nat) :
    ∀ app app1, eventProgress now app0 app →
      eventListenerLoop now event app ps = some app1 → eventProgress now app0 app1 := by
  induction ps with
  | nil =>
    intro app app1 hinv h
    simp only [eventListenerLoop] at h
    injection h with h
    subst h
    exact hinv
  | cons p ps ih =>
    intro app app1 hinv h
    simp only [eventListenerLoop] at h
    split at h
    · cases h
    · rename_i app2 hb
      exact ih app2 app1 (eventProgress_step now event app0 app app2 p hinv hb) h

theorem callEntityListeners_progress (now : Int) (app app1 : App) (msg : stateChangedMsg)
    (h : callEntityListeners now app msg = some app1) : entityProgress now msg app app1 := by
  unfold callEntityListeners at h
  split at h
  · injection h with h; subst h; exact entityProgress_refl now msg app
  · split_ifs at h
    · injection h with h; subst h; exact entityProgress_refl now msg app
    · exact entityProgress_loop now msg app _ app app1 (entityProgress_refl now msg app) h

theorem callEventListeners_progress (now : Int) (app app1 : App) (event : Event)
    (h : callEventListeners now app event = some app1) : eventProgress now app app1 := by
  unfold callEventListeners at h
  split at h
  · injection h with h; subst h; exact eventProgress_refl now app
  · exact eventProgress_loop now event app _ app app1 (eventProgress_refl now app) h

/-! ## Dispatch: `lastRan` -/

/-- C10: when `callEntityListeners` (resp. `callEventListeners`) handles a
notification at the instant `now`, calls are only added to the log, and for
every listener: if one of its gates fails, its `lastRan` afterwards equals
its `lastRan` before; and if its `lastRan` differs afterwards, then every
gate passed (for a state-change listener: and it has no delay), the new
`lastRan` is `now`, and one of the added calls is a call of this listener
at `now`. -/
theorem lastRan_written_only_on_dispatch (now : Int) (app appE appV : App)
    (msg : stateChangedMsg) (event : Event)
    (hE : callEntityListeners now app msg = some appE)
    (hV : callEventListeners now app event = some appV) :
    (∃ added, appE.entityCalls = app.entityCalls ++ added ∧ ∀ p,
      (entityGatesPass now app.State msg (app.entityStore p) = false →
        (appE.entityStore p).lastRan = (app.entityStore p).lastRan) ∧
      ((appE.entityStore p).lastRan ≠ (app.entityStore p).lastRan →
        entityGatesPass now app.State msg (app.entityStore p) = true ∧
        (app.entityStore p).delay = 0 ∧
        (appE.entityStore p).lastRan = now ∧
        ∃ c ∈ added, c.listener = p ∧ c.time = now)) ∧
    (∃ added, appV.eventCalls = app.eventCalls ++ added ∧ ∀ p,
      (eventGatesPass now app.State (app.eventStore p) = false →
        (appV.eventStore p).lastRan = (app.eventStore p).lastRan) ∧
      ((appV.eventStore p).lastRan ≠ (app.eventStore p).lastRan →
        eventGatesPass now app.State (app.eventStore p) = true ∧
        (appV.eventStore p).lastRan = now ∧
        ∃ c ∈ added, c.listener = p ∧ c.time = now)) := by
  obtain ⟨_, addedE, hcE, hqE⟩ := callEntityListeners_progress now app appE msg hE
  obtain ⟨_, addedV, hcV, hqV⟩ := callEventListeners_progress now app appV event hV
  refine ⟨⟨addedE, hcE, fun p => ⟨fun hfail => ?_, fun hne => ?_⟩⟩,
    ⟨addedV, hcV, fun p => ⟨fun hfail => ?_, fun hne => ?_⟩⟩⟩
  · rcases (hqE p).2 with h | ⟨_, hg, _, _⟩
    · exact h
    · rw [hfail] at hg; cases hg
  · rcases (hqE p).2 with h | ⟨h1, hg, hd, hc⟩
    · exact absurd h hne
    · exact ⟨hg, hd, h1, hc⟩
  · rcases (hqV p).2 with h | ⟨_, hg, _⟩
    · exact h
    · rw [hfail] at hg; cases hg
  · rcases (hqV p).2 with h | ⟨h1, hg, hc⟩
    · exact absurd h hne
    · exact ⟨hg, h1, hc⟩

/-- C10 on the application with the pantry listener and the event listener,
for `off → on` and a matching event at 100 s: both calls return, and both
listeners were dispatched. -/
theorem lastRan_written_only_on_dispatch_witness :
    (∃ added,
      (mixedApp.runEntityCallback 0 (seconds 100) (mkEntityData (pantryMsg "off" "on"))).entityCalls
        = mixedApp.entityCalls ++ added ∧ ∀ p,
      (entityGatesPass (seconds 100) mixedApp.State (pantryMsg "off" "on")
          (mixedApp.entityStore p) = false →
        ((mixedApp.runEntityCallback 0 (seconds 100)
          (mkEntityData (pantryMsg "off" "on"))).entityStore p).lastRan
          = (mixedApp.entityStore p).lastRan) ∧
      (((mixedApp.runEntityCallback 0 (seconds 100)
          (mkEntityData (pantryMsg "off" "on"))).entityStore p).lastRan
          ≠ (mixedApp.entityStore p).lastRan →
        entityGatesPass (seconds 100) mixedApp.State (pantryMsg "off" "on")
          (mixedApp.entityStore p) = true ∧
        (mixedApp.entityStore p).delay = 0 ∧
        ((mixedApp.runEntityCallback 0 (seconds 100)
          (mkEntityData (pantryMsg "off" "on"))).entityStore p).lastRan = seconds 100 ∧
        ∃ c ∈ added, c.listener = p ∧ c.time = seconds 100)) ∧
    (∃ added,
      (mixedApp.runEventCallback 0 (seconds 100) zwaveEvent).eventCalls
        = mixedApp.eventCalls ++ added ∧ ∀ p,
      (eventGatesPass (seconds 100) mixedApp.State (mixedApp.eventStore p) = false →
        ((mixedApp.runEventCallback 0 (seconds 100) zwaveEvent).eventStore p).lastRan
          = (mixedApp.eventStore p).lastRan) ∧
      (((mixedApp.runEventCallback 0 (seconds 100) zwaveEvent).eventStore p).lastRan
          ≠ (mixedApp.eventStore p).lastRan →
        eventGatesPass (seconds 100) mixedApp.State (mixedApp.eventStore p) = true ∧
        ((mixedApp.runEventCallback 0 (seconds 100) zwaveEvent).eventStore p).lastRan
          = seconds 100 ∧
        ∃ c ∈ added, c.listener = p ∧ c.time = seconds 100)) :=
  lastRan_written_only_on_dispatch (seconds 100) mixedApp
    (mixedApp.runEntityCallback 0 (seconds 100) (mkEntityData (pantryMsg "off" "on")))
    (mixedApp.runEventCallback 0 (seconds 100) zwaveEvent)
    (pantryMsg "off" "on") zwaveEvent rfl rfl

/-! ## Dispatch: stopping a pending timer -/

theorem Timer.Stop_status (t : Timer) : t.Stop.status ≠ TimerStatus.pending := by
  unfold Timer.Stop
  split_ifs with h
  · simp
  · exact h

theorem Timer.Stop_of_settled (t : Timer) (h : t.status ≠ TimerStatus.pending) : t.Stop = t := by
  unfold Timer.Stop
  rw [if_neg h]

theorem timerSettled_stopTimer_self (app : App) (h : Nat) (t : Timer)
    (hex : app.timers[h]? = some t) : (app.stopTimer h).timerSettled h := by
  refine ⟨t.Stop, ?_, Timer.Stop_status t⟩
  simp [App.stopTimer, hex]

theorem timerSettled_stopTimer (app : App) (h k : Nat) (hs : app.timerSettled h) :
    (app.stopTimer k).timerSettled h := by
  obtain ⟨t, ht, hp⟩ := hs
  refine ⟨t, ?_, hp⟩
  by_cases hk : k = h
  · subst hk
    simp [App.stopTimer, ht, Timer.Stop_of_settled t hp]
  · simp [App.stopTimer, List.getElem?_modify_ne _ _ hk, ht]

theorem getElem?_timers_afterFunc (app : App) (p h : Nat) (now : Int) (d : EntityData)
    (t : Timer) (ht : app.timers[h]? = some t) :
    (app.afterFunc p now d).timers[h]? = some t := by
  have hlt : h < app.timers.length := by
    by_contra hge
    rw [List.getElem?_eq_none (not_lt.mp hge)] at ht
    cases ht
  simp only [App.afterFunc]
  rw [List.getElem?_append_left hlt]
  exact ht

theorem entityListenerBody_cases (now : Int) (msg : stateChangedMsg) (app app1 : App) (p : Nat)
    (hb : entityListenerBody now msg app p = some app1) :
    app1 = app ∨ (∃ t, (app.entityStore p).delayTimer = some t ∧ app1 = app.stopTimer t) ∨
      app1 = app.afterFunc p now (mkEntityData msg) ∨
      app1 = app.runEntityCallback p now (mkEntityData msg) := by
  cases hpass : entityGatesPass now app.State msg (app.entityStore p) with
  | false =>
    rcases entityListenerBody_of_fail now msg app app1 p hpass hb with h | h
    · exact Or.inl h
    · exact Or.inr (Or.inl h)
  | true =>
    rw [entityListenerBody_of_pass now msg app p hpass] at hb
    injection hb with hb
    split_ifs at hb
    · exact Or.inr (Or.inr (Or.inl hb.symm))
    · exact Or.inr (Or.inr (Or.inr hb.symm))

theorem getElem?_timers_body (now : Int) (msg : stateChangedMsg) (app app1 : App) (p h : Nat)
    (hb : entityListenerBody now msg app p = some app1) (hex : ∃ t, app.timers[h]? = some t) :
    ∃ t, app1.timers[h]? = some t := by
  obtain ⟨t, ht⟩ := hex
  rcases entityListenerBody_cases now msg app app1 p hb with e | ⟨k, _, e⟩ | e | e
  · subst e; exact ⟨t, ht⟩
  · subst e
    by_cases hk : k = h
    · subst hk; exact ⟨t.Stop, by simp [App.stopTimer, ht]⟩
    · exact ⟨t, by simp [App.stopTimer, List.getElem?_modify_ne _ _ hk, ht]⟩
  · subst e; exact ⟨t, getElem?_timers_afterFunc app p h now _ t ht⟩
  · subst e; exact ⟨t, ht⟩

theorem timerSettled_body (now : Int) (msg : stateChangedMsg) (app app1 : App) (p h : Nat)
    (hb : entityListenerBody now msg app p = some app1) (hs : app.timerSettled h) :
    app1.timerSettled h := by
  rcases entityListenerBody_cases now msg app app1 p hb with e | ⟨k, _, e⟩ | e | e
  · subst e; exact hs
  · subst e; exact timerSettled_stopTimer app h k hs
  · subst e
    obtain ⟨t, ht, hp⟩ := hs
    exact ⟨t, getElem?_timers_afterFunc app p h now _ t ht, hp⟩
  · subst e; exact hs

theorem entityStore_body_other (now : Int) (msg : stateChangedMsg) (app app1 : App) (p q : Nat)
    (hb : entityListenerBody now msg app q = some app1) (hne : p ≠ q) :
    app1.entityStore p = app.entityStore p := by
  rcases entityListenerBody_cases now msg app app1 q hb with e | ⟨k, _, e⟩ | e | e
  · subst e; rfl
  · subst e; rfl
  · subst e; simp [App.afterFunc, Function.update_noteq hne]
  · subst e; simp [App.runEntityCallback, Function.update_noteq hne]

theorem frame_body (now : Int) (msg : stateChangedMsg) (app app1 : App) (p q : Nat)
    (hb : entityListenerBody now msg app p = some app1) :
    (app1.entityStore q).frame = (app.entityStore q).frame := by
  obtain ⟨_, _, _, hq⟩ :=
    entityProgress_step now msg app app app1 p (entityProgress_refl now msg app) hb
  exact (hq q).1

theorem window_body (now : Int) (msg : stateChangedMsg) (app app1 : App) (p q : Nat)
    (hb : entityListenerBody now msg app p = some app1) :
    CheckWithinTimeRange now (app1.entityStore q).betweenStart (app1.entityStore q).betweenEnd
      = CheckWithinTimeRange now (app.entityStore q).betweenStart (app.entityStore q).betweenEnd := by
  have hf := frame_body now msg app app1 p q hb
  have e1 : (app1.entityStore q).frame.betweenStart = (app.entityStore q).frame.betweenStart :=
    congrArg EntityListener.betweenStart hf
  have e2 : (app1.entityStore q).frame.betweenEnd = (app.entityStore q).frame.betweenEnd :=
    congrArg EntityListener.betweenEnd hf
  change (app1.entityStore q).betweenStart = (app.entityStore q).betweenStart at e1
  change (app1.entityStore q).betweenEnd = (app.entityStore q).betweenEnd at e2
  rw [e1, e2]

theorem entityListenerBody_returns (now : Int) (msg : stateChangedMsg) (app : App) (p : Nat)
    (hw : (CheckWithinTimeRange now (app.entityStore p).betweenStart
      (app.entityStore p).betweenEnd).isSome = true) :
    ∃ app1, entityListenerBody now msg app p = some app1 := by
  obtain ⟨c, hc⟩ := Option.isSome_iff_exists.mp hw
  simp only [entityListenerBody, hc]
  split_ifs
  all_goals first
    | exact ⟨_, rfl⟩
    | (split <;> exact ⟨_, rfl⟩)

theorem entityListenerBody_mismatch (now : Int) (msg : stateChangedMsg) (app : App) (p h : Nat)
    (htimer : (app.entityStore p).delayTimer = some h)
    (hto : (app.entityStore p).toState ≠ "")
    (hmis : (app.entityStore p).toState ≠ msg.NewState.State)
    (hwin : CheckWithinTimeRange now (app.entityStore p).betweenStart
      (app.entityStore p).betweenEnd = some ⟨false⟩)
    (hfrom : (CheckStatesMatch (app.entityStore p).fromState msg.OldState.State).fail = false) :
    entityListenerBody now msg app p = some (app.stopTimer h) := by
  have hfail : (CheckStatesMatch (app.entityStore p).toState msg.NewState.State).fail = true := by
    simp [CheckStatesMatch, hto, hmis]
  simp [entityListenerBody, hwin, hfrom, hfail, htimer]

theorem entityListenerLoop_settled (now : Int) (msg : stateChangedMsg) (h : Nat)
    (ps : List Nat) :
    ∀ app, app.timerSettled h →
      (∀ q ∈ ps, (CheckWithinTimeRange now (app.entityStore q).betweenStart
        (app.entityStore q).betweenEnd).isSome = true) →
      ∃ app1, entityListenerLoop now msg app ps = some app1 ∧ app1.timerSettled h := by
  induction ps with
  | nil => intro app hs _; exact ⟨app, rfl, hs⟩
  | cons q ps ih =>
    intro app hs hret
    obtain ⟨app2, hb⟩ := entityListenerBody_returns now msg app q (hret q (by simp))
    have hret2 : ∀ r ∈ ps, (CheckWithinTimeRange now (app2.entityStore r).betweenStart
        (app2.entityStore r).betweenEnd).isSome = true := by
      intro r hr
      rw [window_body now msg app app2 q r hb]
      exact hret r (by simp [hr])
    obtain ⟨app1, hl, hs1⟩ := ih app2 (timerSettled_body now msg app app2 q h hb hs) hret2
    exact ⟨app1, by simp [entityListenerLoop, hb, hl], hs1⟩

theorem entityListenerLoop_stops (now : Int) (msg : stateChangedMsg) (p h : Nat)
    (ps : List Nat) :
    ∀ app, p ∈ ps → (∃ t, app.timers[h]? = some t) →
      (app.entityStore p).delayTimer = some h →
      (app.entityStore p).toState ≠ "" →
      (app.entityStore p).toState ≠ msg.NewState.State →
      CheckWithinTimeRange now (app.entityStore p).betweenStart
        (app.entityStore p).betweenEnd = some ⟨false⟩ →
      (CheckStatesMatch (app.entityStore p).fromState msg.OldState.State).fail = false →
      (∀ q ∈ ps, (CheckWithinTimeRange now (app.entityStore q).betweenStart
        (app.entityStore q).betweenEnd).isSome = true) →
      ∃ app1, entityListenerLoop now msg app ps = some app1 ∧ app1.timerSettled h := by
  induction ps with
  | nil => intro app hp; cases hp
  | cons q ps ih =>
    intro app hp hex htimer hto hmis hwin hfrom hret
    by_cases hqp : p = q
    · subst hqp
      have hb := entityListenerBody_mismatch now msg app p h htimer hto hmis hwin hfrom
      obtain ⟨t, ht⟩ := hex
      have hret2 : ∀ r ∈ ps, (CheckWithinTimeRange now ((app.stopTimer h).entityStore r).betweenStart
          ((app.stopTimer h).entityStore r).betweenEnd).isSome = true := by
        intro r hr
        exact hret r (by simp [hr])
      obtain ⟨app1, hl, hs1⟩ := entityListenerLoop_settled now msg h ps (app.stopTimer h)
        (timerSettled_stopTimer_self app h t ht) hret2
      exact ⟨app1, by simp [entityListenerLoop, hb, hl], hs1⟩
    · have hp2 : p ∈ ps := by
        rcases List.mem_cons.mp hp with e | e
        · exact absurd e hqp
        · exact e
      obtain ⟨app2, hb⟩ := entityListenerBody_returns now msg app q (hret q (by simp))
      have hst := entityStore_body_other now msg app app2 p q hb hqp
      have hret2 : ∀ r ∈ ps, (CheckWithinTimeRange now (app2.entityStore r).betweenStart
          (app2.entityStore r).betweenEnd).isSome = true := by
        intro r hr
        rw [window_body now msg app app2 q r hb]
        exact hret r (by simp [hr])
      obtain ⟨app1, hl, hs1⟩ := ih app2 hp2 (getElem?_timers_body now msg app app2 q h hb hex)
        (by rw [hst]; exact htimer) (by rw [hst]; exact hto) (by rw [hst]; exact hmis)
        (by rw [hst]; exact hwin) (by rw [hst]; exact hfrom) hret2
      exact ⟨app1, by simp [entityListenerLoop, hb, hl], hs1⟩

theorem timerPending_of_settled (app : App) (h : Nat) (hs : app.timerSettled h) :
    app.timerPending h = false ∧ app.fireTimer h = app := by
  obtain ⟨t, ht, hp⟩ := hs
  constructor
  · simp [App.timerPending, ht, hp]
  · simp [App.fireTimer, ht, hp]

/-- C4 (amended): the listener at `p` is registered for the notification's
entity, its `delayTimer` is the handle `h` of a pending timer, the new state
differs from the old one and from the listener's non-empty `toState`, and the
listener's time-window gate and `fromState` gate pass (the time-window gate
of every listener of that entity returns).  Then `callEntityListeners`
returns, and afterwards the timer `h` is not pending and running it does
nothing. -/
theorem mismatch_stops_pending_timer (now : Int) (app : App) (msg : stateChangedMsg)
    (ps : List Nat) (p h : Nat)
    (hreg : app.entityListeners.lookup msg.EntityID = some ps) (hp : p ∈ ps)
    (hne : msg.NewState.State ≠ msg.OldState.State)
    (htimer : (app.entityStore p).delayTimer = some h)
    (hpend : app.timerPending h = true)
    (hto : (app.entityStore p).toState ≠ "")
    (hmis : (app.entityStore p).toState ≠ msg.NewState.State)
    (hwin : CheckWithinTimeRange now (app.entityStore p).betweenStart
      (app.entityStore p).betweenEnd = some ⟨false⟩)
    (hfrom : (CheckStatesMatch (app.entityStore p).fromState msg.OldState.State).fail = false)
    (hret : ∀ q ∈ ps, (CheckWithinTimeRange now (app.entityStore q).betweenStart
      (app.entityStore q).betweenEnd).isSome = true) :
    ∃ app1, callEntityListeners now app msg = some app1 ∧
      app1.timerPending h = false ∧ app1.fireTimer h = app1 := by
  have hex : ∃ t, app.timers[h]? = some t := by
    unfold App.timerPending at hpend
    split at hpend
    · rename_i t ht; exact ⟨t, ht⟩
    · cases hpend
  obtain ⟨app1, hl, hs⟩ := entityListenerLoop_stops now msg p h ps app hp hex htimer hto hmis
    hwin hfrom hret
  refine ⟨app1, ?_, timerPending_of_settled app1 h hs⟩
  simp [callEntityListeners, hreg, hne, hl]

/-- C4 (amended) on a listener with `toState = "on"` and a delay of five
seconds, armed by `off → on` at 100 s: the notification `on → off` at 101 s
stops the timer. -/
theorem mismatch_stops_pending_timer_witness :
    armedApp.timerPending 0 = true ∧
    ∃ app1, callEntityListeners (seconds 101) armedApp (pantryMsg "on" "off") = some app1 ∧
      app1.timerPending 0 = false ∧ app1.fireTimer 0 = app1 :=
  ⟨by decide,
    mismatch_stops_pending_timer (seconds 101) armedApp (pantryMsg "on" "off") [0] 0 0
      (by decide) (by simp) (by decide) (by decide) (by decide) (by decide) (by decide)
      (by decide) (by decide) (by decide)⟩

/-- The same scenario as a feed: the stopped timer starts no callback. -/
theorem mismatch_cancels_example :
    runFeed (singleListenerApp stayOnListener) [(seconds 100, pantryMsg "off" "on")]
      = some armedApp ∧
    (runFeed (singleListenerApp stayOnListener)
      [(seconds 100, pantryMsg "off" "on"), (seconds 101, pantryMsg "on" "off")]).map
      (fun a => (a.timerPending 0, (a.advance (seconds 200)).callTimes 0))
      = some (false, []) := by
  constructor
  · rfl
  · decide

theorem timerSettled_fireTimer (app : App) (h k : Nat) (hs : app.timerSettled h) :
    (app.fireTimer k).timerSettled h := by
  obtain ⟨t, ht, hp⟩ := hs
  unfold App.fireTimer
  split
  · exact ⟨t, ht, hp⟩
  · rename_i tk hk
    split_ifs with hpk
    · have hkh : k ≠ h := by
        intro e
        subst e
        rw [ht] at hk
        injection hk with hk
        subst hk
        exact hp hpk
      refine ⟨t, ?_, hp⟩
      simp [List.getElem?_set_ne hkh, ht]
    · exact ⟨t, ht, hp⟩

/-- A timer that is settled stays settled while the runtime runs the timers
that are due. -/
theorem timerSettled_advance (app : App) (h : Nat) (now : Int) (hs : app.timerSettled h) :
    (app.advance now).timerSettled h := by
  unfold App.advance
  generalize List.range app.timers.length = ks
  induction ks generalizing app with
  | nil => exact hs
  | cons k ks ih =>
    simp only [List.foldl_cons]
    apply ih
    split
    · split_ifs
      · exact timerSettled_fireTimer app h k hs
      · exact hs
    · exact hs

/-- A timer that is settled stays settled through every later
notification. -/
theorem timerSettled_callEntityListeners (now : Int) (app app1 : App) (msg : stateChangedMsg)
    (h : Nat) (hs : app.timerSettled h) (hc : callEntityListeners now app msg = some app1) :
    app1.timerSettled h := by
  have hloop : ∀ ps app app1, app.timerSettled h →
      entityListenerLoop now msg app ps = some app1 → app1.timerSettled h := by
    intro ps
    induction ps with
    | nil =>
      intro app app1 hs hl
      simp only [entityListenerLoop] at hl
      injection hl with hl
      subst hl
      exact hs
    | cons q ps ih =>
      intro app app1 hs hl
      simp only [entityListenerLoop] at hl
      split at hl
      · cases hl
      · rename_i app2 hb
        exact ih app2 app1 (timerSettled_body now msg app app2 q h hb hs) hl
  unfold callEntityListeners at hc
  split at hc
  · injection hc with hc; subst hc; exact hs
  · split_ifs at hc
    · injection hc with hc; subst hc; exact hs
    · exact hloop _ app app1 hs hc

/-- A notification that the throttle gate rejects starts no callback, creates
no timer and leaves the listener's `lastRan` as it is. -/
theorem throttled_notification_is_dropped (now : Int) (msg : stateChangedMsg) (app app1 : App)
    (p : Nat)
    (hthr : (CheckThrottle now (app.entityStore p).throttle (app.entityStore p).lastRan).fail
      = true)
    (hb : entityListenerBody now msg app p = some app1) :
    app1.entityCalls = app.entityCalls ∧ app1.timers.length = app.timers.length ∧
      app1.entityStore = app.entityStore := by
  have hpass : entityGatesPass now app.State msg (app.entityStore p) = false := by
    simp [entityGatesPass, hthr]
  rcases entityListenerBody_of_fail now msg app app1 p hpass hb with e | ⟨t, _, e⟩
  · subst e; exact ⟨rfl, rfl, rfl⟩
  · subst e; exact ⟨rfl, by simp [App.stopTimer], rfl⟩

/-! ## A window whose two ends are the same time of day -/

/-- C11: for an `HH:MM` string `t` and every instant `now`,
`CheckWithinTimeRange t t` returns and fails: the end is not earlier than the
start, so neither is moved by a day, and no instant is in `[start, start)`.
A listener built with `OnlyBetween t t` carries `t` in both fields, so its
time-window gate fails and its gates never all pass. -/
theorem CheckWithinTimeRange_same_time (now : Int) (t : String) (m : Nat)
    (ht : parseHHMM t = some m) (b : elBuilder3) (state : String → Option String)
    (msg : stateChangedMsg) :
    CheckWithinTimeRange now t t = some ⟨true⟩ ∧
    CheckWithinTimeRange now (b.OnlyBetween t t).entityListener.betweenStart
      (b.OnlyBetween t t).entityListener.betweenEnd = some ⟨true⟩ ∧
    entityGatesPass now state msg (b.OnlyBetween t t).entityListener = false := by
  have ht0 := parseHHMM_ne_empty _ _ ht
  have hgate : CheckWithinTimeRange now t t = some ⟨true⟩ := by
    simp only [CheckWithinTimeRange, ParseTime, ht, ht0, ne_eq, not_false_eq_true, and_self,
      if_true, Lt, lt_self_iff_false, decide_False, Bool.false_eq_true, if_false,
      BetweenIncludedStart, Gte]
    rw [if_pos]
    simp only [Bool.not_eq_true', Bool.and_eq_false_imp, decide_eq_true_eq,
      decide_eq_false_iff_not, not_lt]
    exact fun h => h
  have hfields : CheckWithinTimeRange now (b.OnlyBetween t t).entityListener.betweenStart
      (b.OnlyBetween t t).entityListener.betweenEnd = some ⟨true⟩ := hgate
  refine ⟨hgate, hfields, ?_⟩
  simp [entityGatesPass, hfields]

/-- C11 for `22:00` on the pantry listener, at 22:00 sharp and one minute
before and after on day 5. -/
theorem CheckWithinTimeRange_same_time_witness :
    (CheckWithinTimeRange (5 * nanosPerDay + seconds 79200) "22:00" "22:00" = some ⟨true⟩ ∧
      CheckWithinTimeRange (5 * nanosPerDay + seconds 79200)
        ((⟨pantryListener⟩ : elBuilder3).OnlyBetween "22:00" "22:00").entityListener.betweenStart
        ((⟨pantryListener⟩ : elBuilder3).OnlyBetween "22:00" "22:00").entityListener.betweenEnd
        = some ⟨true⟩ ∧
      entityGatesPass (5 * nanosPerDay + seconds 79200) (fun _ => none) (pantryMsg "off" "on")
        ((⟨pantryListener⟩ : elBuilder3).OnlyBetween "22:00" "22:00").entityListener = false) ∧
    CheckWithinTimeRange (5 * nanosPerDay + seconds 79140) "22:00" "22:00" = some ⟨true⟩ ∧
    CheckWithinTimeRange (5 * nanosPerDay + seconds 79260) "22:00" "22:00" = some ⟨true⟩ :=
  ⟨CheckWithinTimeRange_same_time (5 * nanosPerDay + seconds 79200) "22:00" 1320 (by decide)
    ⟨pantryListener⟩ (fun _ => none) (pantryMsg "off" "on"), by decide, by decide⟩

end GomeAssistant
